import Mathlib

/-!
Verification of the LazyPinned library (src/lib.rs).

The Rust type `LazyPinned<T>(pub Option<T>)` is a container holding an
optional value, with a pinned-projection API. We shallowly embed it:

* `LazyPinned T` is a structure wrapping `Option T` (the field `.opt`
  corresponds to the Rust tuple field `.0`).
* A method taking `Pin<&mut Self>` becomes a function from the current
  container state to (returned reference value, new container state).
  A `Pin<&mut T>` return is modelled by the value the reference points at
  (which is the slot content after the call).
* An `FnOnce` closure may capture and mutate an environment, so closures
  are embedded as state-threading functions `σ → ... → ... × σ`; counting
  instantiations of `σ` let us prove how many times a closure runs.
* The pinning aspect (memory addresses) is modelled by `PinnedMem`: the
  container sits at a fixed address (that is what `Pin<&mut Self>`
  guarantees), the value is stored inline in the slot, and none of the
  source operations reallocates, so each operation keeps the address.
-/

/-- Embedding of the Rust struct: a container holding zero or one value of
type T. The field corresponds to the public tuple field 0 of the source. -/
structure LazyPinned (T : Type) where
  opt : Option T

/-- Embedding of the derived Default impl: the container starts empty. -/
def LazyPinned.default {T : Type} : LazyPinned T := ⟨none⟩

/-- Embedding of as_pin_ref: from a shared pinned reference, project the
slot read-only. The source is self.0.as_ref().map(Pin::new_unchecked);
a Pin reference is modelled by the value it points to, and a shared
reference cannot change the state, so the function returns only the
projection. -/
def LazyPinned.as_pin_ref {T : Type} (s : LazyPinned T) : Option T :=
  s.opt.map (fun x => x)

/-- Embedding of as_pin_mut: from an exclusive pinned reference, project
the slot. The source is self.0.as_mut().map(Pin::new_unchecked): it reads
the slot and performs no write, so the state component of the result is
the input state. -/
def LazyPinned.as_pin_mut {T : Type} (s : LazyPinned T) : Option T × LazyPinned T :=
  (s.opt.map (fun x => x), s)

/-- Embedding of Option::get_or_insert (used by pin_project_or_insert):
if the option is none, the value v is written into it; the result is the
referenced content together with the new option. -/
def getOrInsert {T : Type} (o : Option T) (v : T) : T × Option T :=
  match o with
  | some x => (x, some x)
  | none => (v, some v)

/-- Embedding of Option::get_or_insert, additionally returning the list of
values dropped by the call: on the occupied path the argument v is consumed
without being stored, so Rust drops it there; on the empty path nothing is
dropped. -/
def getOrInsertTracked {T : Type} (o : Option T) (v : T) : T × Option T × List T :=
  match o with
  | some x => (x, some x, [v])
  | none => (v, some v, [])

/-- Embedding of Option::get_or_insert_with (used by
pin_project_or_insert_with): the producer f is an FnOnce closure, embedded
as state-threading; it is run only in the none branch, exactly as in the
source. -/
def getOrInsertWith {T σ : Type} (o : Option T) (f : σ → T × σ) (st : σ) :
    T × Option T × σ :=
  match o with
  | some x => (x, some x, st)
  | none =>
    let p := f st
    (p.1, some p.1, p.2)

/-- Embedding of pin_project_or_insert: get_or_insert on the slot, then a
pinned reference to the (now present) content. -/
def LazyPinned.pin_project_or_insert {T : Type} (s : LazyPinned T) (v : T) :
    T × LazyPinned T :=
  let p := getOrInsert s.opt v
  (p.1, ⟨p.2⟩)

/-- Embedding of pin_project_or_insert with drop tracking, via
getOrInsertTracked: third component is the list of values dropped by the
call. -/
def LazyPinned.pin_project_or_insert_tracked {T : Type} (s : LazyPinned T) (v : T) :
    T × LazyPinned T × List T :=
  let p := getOrInsertTracked s.opt v
  (p.1, ⟨p.2.1⟩, p.2.2)

/-- Embedding of pin_project_or_insert_with: get_or_insert_with on the
slot. -/
def LazyPinned.pin_project_or_insert_with {T σ : Type} (s : LazyPinned T)
    (f : σ → T × σ) (st : σ) : T × LazyPinned T × σ :=
  let p := getOrInsertWith s.opt f st
  (p.1, ⟨p.2.1⟩, p.2.2)

/-- Embedding of use_pin_or_insert_with: match on the slot; when occupied,
run the use_pin closure on the pinned content (in-place mutation is
modelled by the closure returning the new content) and return the
reference; when empty, run the producer and insert its result. Both
closures thread the environment σ. -/
def LazyPinned.use_pin_or_insert_with {T σ : Type} (s : LazyPinned T)
    (use_pin : σ → T → T × σ) (ins : σ → T × σ) (st : σ) :
    T × LazyPinned T × σ :=
  match s.opt with
  | some x =>
    let p := use_pin st x
    (p.1, ⟨some p.1⟩, p.2)
  | none =>
    let p := ins st
    (p.1, ⟨some p.1⟩, p.2)

/-- Embedding of use_pin_or_insert: the source delegates to
use_pin_or_insert_with with the producer being move closure returning v. -/
def LazyPinned.use_pin_or_insert {T σ : Type} (s : LazyPinned T)
    (use_pin : σ → T → T × σ) (v : T) (st : σ) : T × LazyPinned T × σ :=
  s.use_pin_or_insert_with use_pin (fun st => (v, st)) st

/-- Embedding of use_pin_or_insert_with_data: as use_pin_or_insert_with,
but an auxiliary data value is passed to whichever closure runs. -/
def LazyPinned.use_pin_or_insert_with_data {T Data σ : Type} (s : LazyPinned T)
    (data : Data) (use_pin : σ → Data → T → T × σ) (ins : σ → Data → T × σ)
    (st : σ) : T × LazyPinned T × σ :=
  match s.opt with
  | some x =>
    let p := use_pin st data x
    (p.1, ⟨some p.1⟩, p.2)
  | none =>
    let p := ins st data
    (p.1, ⟨some p.1⟩, p.2)

/-- Wrapper turning a state-threading producer into one that also counts
its invocations. -/
def countCalls {T σ : Type} (f : σ → T × σ) : σ × Nat → T × (σ × Nat) :=
  fun st =>
    let p := f st.1
    (p.1, (p.2, st.2 + 1))

/-- Pure use callback instrumented to count its invocations in the first
counter of the environment. -/
def countUse {T : Type} (u : T → T) : Nat × Nat → T → T × (Nat × Nat) :=
  fun st x => (u x, (st.1 + 1, st.2))

/-- Pure producer instrumented to count its invocations in the second
counter of the environment. -/
def countIns {T : Type} (f : Unit → T) : Nat × Nat → T × (Nat × Nat) :=
  fun st => (f (), (st.1, st.2 + 1))

/-!
The pinned API surface as a step machine: one constructor per public
method reachable through a pinned reference. Closure arguments are the
pure shapes (environment Unit); the data-carrying variant carries its
auxiliary data type existentially.
-/

/-- Operations of the pinned API surface of LazyPinned. -/
inductive POp (T : Type) : Type 1 where
  | asPinRef : POp T
  | asPinMut : POp T
  | projOrInsert : T → POp T
  | projOrInsertWith : (Unit → T) → POp T
  | useOrInsert : (T → T) → T → POp T
  | useOrInsertWith : (T → T) → (Unit → T) → POp T
  | useOrInsertWithData : {Data : Type} → Data → (Data → T → T) → (Data → T) → POp T

/-- Whether an operation has an insert path (the five or_insert methods);
as_pin_ref and as_pin_mut only project. -/
def POp.insertsB {T : Type} : POp T → Bool
  | .asPinRef => false
  | .asPinMut => false
  | .projOrInsert _ => true
  | .projOrInsertWith _ => true
  | .useOrInsert _ _ => true
  | .useOrInsertWith _ _ => true
  | .useOrInsertWithData _ _ _ => true

/-- Running one pinned-surface operation: the new container state. Each
branch calls the corresponding embedded method (with the trivial closure
environment) and keeps its state component. -/
def step {T : Type} : POp T → LazyPinned T → LazyPinned T
  | .asPinRef, s => s
  | .asPinMut, s => s.as_pin_mut.2
  | .projOrInsert v, s => (s.pin_project_or_insert v).2
  | .projOrInsertWith f, s =>
    (s.pin_project_or_insert_with (fun (u : Unit) => (f (), u)) ()).2.1
  | .useOrInsert u v, s =>
    (s.use_pin_or_insert (fun (e : Unit) t => (u t, e)) v ()).2.1
  | .useOrInsertWith u f, s =>
    (s.use_pin_or_insert_with (fun (e : Unit) t => (u t, e)) (fun e => (f (), e)) ()).2.1
  | .useOrInsertWithData d u f, s =>
    (s.use_pin_or_insert_with_data d (fun (e : Unit) d t => (u d t, e)) (fun e d => (f d, e)) ()).2.1

/-- Running one pinned-surface operation: the value returned to the
caller. The projections return the optional projected reference; the five
or_insert methods return a (modelled) pinned reference, always present. -/
def runRet {T : Type} : POp T → LazyPinned T → Option T
  | .asPinRef, s => s.as_pin_ref
  | .asPinMut, s => s.as_pin_mut.1
  | .projOrInsert v, s => some (s.pin_project_or_insert v).1
  | .projOrInsertWith f, s =>
    some (s.pin_project_or_insert_with (fun (u : Unit) => (f (), u)) ()).1
  | .useOrInsert u v, s =>
    some (s.use_pin_or_insert (fun (e : Unit) t => (u t, e)) v ()).1
  | .useOrInsertWith u f, s =>
    some (s.use_pin_or_insert_with (fun (e : Unit) t => (u t, e)) (fun e => (f (), e)) ()).1
  | .useOrInsertWithData d u f, s =>
    some (s.use_pin_or_insert_with_data d (fun (e : Unit) d t => (u d t, e)) (fun e d => (f d, e)) ()).1

/-- Running a sequence of pinned-surface operations, first element first. -/
def stepAll {T : Type} (ops : List (POp T)) (s : LazyPinned T) : LazyPinned T :=
  ops.foldl (fun s op => step op s) s

/-!
The address model. The caller reaches the container only through
Pin of a reference, so the container's address is fixed; the value lives
inline in the slot, so an occupied slot's value has the container's
address. None of the source operations reallocates or re-creates the
container (each works through get_unchecked_mut on the same reference),
so running an operation keeps the address and only updates the slot via
step.
-/

/-- A pinned container together with the fixed memory address Pin
guarantees for it. -/
structure PinnedMem (T : Type) where
  addr : Nat
  lp : LazyPinned T

/-- The address of the contained value: present iff the slot is occupied,
and then equal to the container's (fixed, inline-slot) address. -/
def valueAddr {T : Type} (s : PinnedMem T) : Option Nat :=
  s.lp.opt.map (fun _ => s.addr)

/-- Running one pinned-surface operation on a pinned container: the slot
evolves by step and the address stays, because every source method works
in place through the same pinned reference. -/
def stepMem {T : Type} (op : POp T) (s : PinnedMem T) : PinnedMem T :=
  ⟨s.addr, step op s.lp⟩

/-- Running a sequence of pinned-surface operations on a pinned
container. -/
def stepAllMem {T : Type} (ops : List (POp T)) (s : PinnedMem T) : PinnedMem T :=
  ops.foldl (fun s op => stepMem op s) s

/-!
Embeddings of the derived trait impls (Debug, Clone, Copy, PartialEq, Eq,
PartialOrd, Ord, Hash). A Rust derive on a single-field tuple struct
delegates to the field, here of type Option T; the derive on Option
compares discriminants first, with None before Some, and compares
payloads when both are Some.
-/

/-- Rust derived PartialEq for Option T, given equality on T. -/
def optionEqb {T : Type} (e : T → T → Bool) : Option T → Option T → Bool
  | none, none => true
  | some a, some b => e a b
  | _, _ => false

/-- Rust derived Ord for Option T, given a comparison on T: None is less
than any Some, and two Some compare by payload. -/
def optionCmp {T : Type} (c : T → T → Ordering) : Option T → Option T → Ordering
  | none, none => .eq
  | none, some _ => .lt
  | some _, none => .gt
  | some a, some b => c a b

/-- Derived PartialEq for LazyPinned: delegates to the single field. -/
def LazyPinned.eqb {T : Type} (e : T → T → Bool) (a b : LazyPinned T) : Bool :=
  optionEqb e a.opt b.opt

/-- Derived Ord for LazyPinned: delegates to the single field. -/
def LazyPinned.cmp {T : Type} (c : T → T → Ordering) (a b : LazyPinned T) : Ordering :=
  optionCmp c a.opt b.opt

/-- Derived Hash for LazyPinned: hashes the single field, so it equals any
given hash of the wrapped option. -/
def LazyPinned.hashWith {T : Type} (h : Option T → Nat) (a : LazyPinned T) : Nat :=
  h a.opt

/-- Derived Clone for LazyPinned: clones the single field, which clones
the contained value if present. -/
def LazyPinned.clone {T : Type} (cl : T → T) (a : LazyPinned T) : LazyPinned T :=
  ⟨a.opt.map cl⟩

/-- Derived Copy for LazyPinned: a bitwise copy, the identical optional
value. -/
def LazyPinned.copy {T : Type} (a : LazyPinned T) : LazyPinned T :=
  ⟨a.opt⟩

/-!
Helper lemmas shared by the claim theorems.
-/

/-- Every pinned-surface operation keeps an occupied slot occupied: no
branch of any source method writes none into the slot. -/
theorem step_preserves_isSome {T : Type} (op : POp T) (s : LazyPinned T)
    (h : s.opt.isSome = true) : (step op s).opt.isSome = true := by
  obtain ⟨x, hx⟩ := Option.isSome_iff_exists.mp h
  obtain ⟨o⟩ := s
  simp only at hx
  subst hx
  cases op <;> rfl

/-- A sequence of pinned-surface operations keeps an occupied slot
occupied. -/
theorem stepAll_preserves_isSome {T : Type} (ops : List (POp T)) (s : LazyPinned T)
    (h : s.opt.isSome = true) : (stepAll ops s).opt.isSome = true := by
  induction ops generalizing s with
  | nil => exact h
  | cons op ops ih =>
    show (stepAll ops (step op s)).opt.isSome = true
    exact ih (step op s) (step_preserves_isSome op s h)

/-- Every operation with an insert path leaves the slot occupied, from
either starting state. -/
theorem step_insert_isSome {T : Type} (op : POp T) (s : LazyPinned T)
    (h : op.insertsB = true) : (step op s).opt.isSome = true := by
  obtain ⟨o⟩ := s
  cases o <;> cases op <;> simp_all [POp.insertsB, step, LazyPinned.as_pin_mut,
    LazyPinned.pin_project_or_insert, getOrInsert,
    LazyPinned.pin_project_or_insert_with, getOrInsertWith,
    LazyPinned.use_pin_or_insert, LazyPinned.use_pin_or_insert_with,
    LazyPinned.use_pin_or_insert_with_data]

/-- Running a sequence on a pinned container: the address component never
changes and the slot evolves by stepAll. -/
theorem stepAllMem_eq {T : Type} (ops : List (POp T)) (a : Nat) (l : LazyPinned T) :
    stepAllMem ops ⟨a, l⟩ = ⟨a, stepAll ops l⟩ := by
  induction ops generalizing l with
  | nil => rfl
  | cons op ops ih =>
    show stepAllMem ops (stepMem op ⟨a, l⟩) = ⟨a, stepAll ops (step op l)⟩
    exact ih (step op l)

/-- An occupied pinned container's value address is the container
address. -/
theorem valueAddr_of_isSome {T : Type} (a : Nat) (l : LazyPinned T)
    (h : l.opt.isSome = true) : valueAddr ⟨a, l⟩ = some a := by
  obtain ⟨x, hx⟩ := Option.isSome_iff_exists.mp h
  simp [valueAddr, hx]

/-- Conversely, a present value address means the slot is occupied and the
address is the container address. -/
theorem valueAddr_some_elim {T : Type} (ad a : Nat) (l : LazyPinned T)
    (h : valueAddr ⟨ad, l⟩ = some a) : l.opt.isSome = true ∧ ad = a := by
  cases hx : l.opt with
  | none => simp [valueAddr, hx] at h
  | some x =>
    simp [valueAddr, hx] at h
    exact ⟨by simp [hx], h⟩

/-!
Claim theorems.
-/

/-- C1: no relocation after first pin. For a container accessed through a
pinned reference, whenever the slot is occupied at address a, every
sequence of pinned-surface operations leaves the value at the identical
address a; in particular after pin-projecting an insert, all subsequent
mutations and reads observe the container's fixed address, and the
container address itself never changes. -/
theorem no_relocation_after_first_pin {T : Type} (ops : List (POp T))
    (s : PinnedMem T) (a : Nat) :
    (valueAddr s = some a → valueAddr (stepAllMem ops s) = some a) ∧
    (∀ v : T, valueAddr (stepAllMem ops (stepMem (POp.projOrInsert v) s)) = some s.addr) ∧
    (stepAllMem ops s).addr = s.addr := by
  obtain ⟨ad, l⟩ := s
  refine ⟨?_, ?_, ?_⟩
  · intro h
    obtain ⟨hocc, hEq⟩ := valueAddr_some_elim ad a l h
    rw [stepAllMem_eq, ← hEq]
    exact valueAddr_of_isSome ad (stepAll ops l) (stepAll_preserves_isSome ops l hocc)
  · intro v
    show valueAddr (stepAllMem ops ⟨ad, step (POp.projOrInsert v) l⟩) = some ad
    rw [stepAllMem_eq]
    exact valueAddr_of_isSome ad _
      (stepAll_preserves_isSome ops _ (step_insert_isSome (POp.projOrInsert v) l rfl))
  · rw [stepAllMem_eq]

/-- Witness for C1 at a concrete pinned container: occupied at address 7
with value 3, running a projection then an insert attempt keeps the value
at address 7. -/
theorem no_relocation_after_first_pin_witness :
    valueAddr (stepAllMem [POp.asPinMut, POp.projOrInsert 9]
      (⟨7, ⟨some 3⟩⟩ : PinnedMem Nat)) = some 7 :=
  (no_relocation_after_first_pin [POp.asPinMut, POp.projOrInsert 9]
    ⟨7, ⟨some 3⟩⟩ 7).1 rfl

/-- C2: idempotent insert. Starting from the default (empty) container,
pin_project_or_insert with v1 returns v1, fills the slot with v1 and drops
nothing; the second call with v2 still returns v1, keeps the slot at v1,
and drops v2 (so v2 is not present anywhere afterward). -/
theorem idempotent_insert {T : Type} (v1 v2 : T) :
    (LazyPinned.default : LazyPinned T).pin_project_or_insert_tracked v1 =
      (v1, ⟨some v1⟩, []) ∧
    ((LazyPinned.default : LazyPinned T).pin_project_or_insert_tracked v1).2.1.pin_project_or_insert_tracked v2 =
      (v1, ⟨some v1⟩, [v2]) ∧
    ((LazyPinned.default : LazyPinned T).pin_project_or_insert v1).2.pin_project_or_insert v2 =
      (v1, ⟨some v1⟩) :=
  ⟨rfl, rfl, rfl⟩

/-- C3: laziness of the factory insert. With the producer instrumented to
count its invocations: on an occupied slot the producer is never invoked
(the counter and the closure environment are untouched, the state is
unchanged, and the existing value is returned); on an empty slot the
producer is invoked exactly once and its result is inserted and
returned. -/
theorem lazy_producer_once {T σ : Type} (s : LazyPinned T) (f : σ → T × σ)
    (st : σ) (n : Nat) :
    (∀ x, s.opt = some x →
      s.pin_project_or_insert_with (countCalls f) (st, n) = (x, s, (st, n))) ∧
    (s.opt = none →
      s.pin_project_or_insert_with (countCalls f) (st, n) =
        ((f st).1, ⟨some (f st).1⟩, ((f st).2, n + 1))) := by
  obtain ⟨o⟩ := s
  constructor
  · intro x hx
    simp only at hx
    subst hx
    rfl
  · intro h
    simp only at h
    subst h
    rfl

/-- Witness for C3: occupied slot 3 leaves the counter at 0 and returns 3;
empty slot runs the producer once (counter 1) and inserts 7. -/
theorem lazy_producer_once_witness :
    ((⟨some 3⟩ : LazyPinned Nat).pin_project_or_insert_with
      (countCalls (fun (u : Unit) => (7, u))) ((), 0) = (3, ⟨some 3⟩, ((), 0))) ∧
    ((⟨none⟩ : LazyPinned Nat).pin_project_or_insert_with
      (countCalls (fun (u : Unit) => (7, u))) ((), 0) = (7, ⟨some 7⟩, ((), 1))) :=
  ⟨(lazy_producer_once ⟨some 3⟩ (fun (u : Unit) => (7, u)) () 0).1 3 rfl,
   (lazy_producer_once ⟨none⟩ (fun (u : Unit) => (7, u)) () 0).2 rfl⟩

/-- C4: use-vs-insert branch selection. With both callbacks instrumented
to count invocations (first counter: use callback, second: producer): on
an empty slot the producer runs once, its result fills the slot and is
returned, and the use callback never runs; on an occupied slot the use
callback runs exactly once on the existing value, the producer never runs,
and the returned reference is the existing (mutated) value. -/
theorem use_vs_insert_branch {T : Type} (s : LazyPinned T) (u : T → T)
    (f : Unit → T) (a b : Nat) :
    (s.opt = none →
      s.use_pin_or_insert_with (countUse u) (countIns f) (a, b) =
        (f (), ⟨some (f ())⟩, (a, b + 1))) ∧
    (∀ x, s.opt = some x →
      s.use_pin_or_insert_with (countUse u) (countIns f) (a, b) =
        (u x, ⟨some (u x)⟩, (a + 1, b))) := by
  obtain ⟨o⟩ := s
  constructor
  · intro h
    simp only at h
    subst h
    rfl
  · intro x hx
    simp only at hx
    subst hx
    rfl

/-- Witness for C4 following Scenario C: on an empty container the insert
factory producing 0 runs (insert counter 1, use counter 0) and the slot
holds 0; calling again on the resulting container runs the increment use
callback once, giving 1. -/
theorem use_vs_insert_branch_witness :
    ((⟨none⟩ : LazyPinned Nat).use_pin_or_insert_with
      (countUse (fun t => t + 1)) (countIns (fun _ => 0)) (0, 0) =
        (0, ⟨some 0⟩, (0, 1))) ∧
    ((⟨some 0⟩ : LazyPinned Nat).use_pin_or_insert_with
      (countUse (fun t => t + 1)) (countIns (fun _ => 0)) (0, 0) =
        (1, ⟨some 1⟩, (1, 0))) :=
  ⟨(use_vs_insert_branch ⟨none⟩ (fun t => t + 1) (fun _ => 0) 0 0).1 rfl,
   (use_vs_insert_branch ⟨some 0⟩ (fun t => t + 1) (fun _ => 0) 0 0).2 0 rfl⟩

/-- C5: optional equivalence under non-pinned access. The derived
equality, ordering, hash, clone and copy of LazyPinned all delegate to the
wrapped optional value; an empty container orders strictly below any
filled one, and two filled containers are equal exactly when their values
are. -/
theorem optional_equivalence_unpinned {T : Type} (e : T → T → Bool)
    (c : T → T → Ordering) (h : Option T → Nat) (a b : LazyPinned T) (x y : T) :
    LazyPinned.eqb e a b = optionEqb e a.opt b.opt ∧
    LazyPinned.cmp c a b = optionCmp c a.opt b.opt ∧
    LazyPinned.hashWith h a = h a.opt ∧
    LazyPinned.clone (fun t => t) a = a ∧
    LazyPinned.copy a = a ∧
    LazyPinned.cmp c ⟨none⟩ ⟨some x⟩ = Ordering.lt ∧
    LazyPinned.eqb e ⟨some x⟩ ⟨some y⟩ = e x y := by
  refine ⟨rfl, rfl, rfl, ?_, rfl, rfl, rfl⟩
  obtain ⟨o⟩ := a
  cases o <;> rfl

/-- C6: projection presence agreement. The read-only pinned projection is
present exactly when the mutable pinned projection is present, and both
exactly when the slot is occupied. -/
theorem projection_presence_agreement {T : Type} (s : LazyPinned T) :
    s.as_pin_ref.isSome = s.as_pin_mut.1.isSome ∧
    s.as_pin_ref.isSome = s.opt.isSome := by
  obtain ⟨o⟩ := s
  refine ⟨rfl, ?_⟩
  cases o <;> rfl

/-- C7: state machine of the pinned surface. Along any sequence of
pinned-surface operations an occupied container never becomes empty; a
single operation also preserves occupancy, and each of the five or_insert
operations leaves the container occupied from any starting state. -/
theorem pinned_surface_state_machine {T : Type} (ops : List (POp T))
    (s : LazyPinned T) (op : POp T) :
    (s.opt.isSome = true → (stepAll ops s).opt.isSome = true) ∧
    (s.opt.isSome = true → (step op s).opt.isSome = true) ∧
    (op.insertsB = true → (step op s).opt.isSome = true) :=
  ⟨stepAll_preserves_isSome ops s, step_preserves_isSome op s,
   step_insert_isSome op s⟩

/-- Witness for C7: a mutable projection keeps an occupied container
occupied, and an insert on an empty container leaves it occupied. -/
theorem pinned_surface_state_machine_witness :
    (stepAll [POp.asPinMut] (⟨some 3⟩ : LazyPinned Nat)).opt.isSome = true ∧
    (step (POp.projOrInsert 5) (⟨none⟩ : LazyPinned Nat)).opt.isSome = true :=
  ⟨(pinned_surface_state_machine [POp.asPinMut] ⟨some 3⟩ POp.asPinRef).1 rfl,
   (pinned_surface_state_machine ([] : List (POp Nat)) ⟨none⟩
     (POp.projOrInsert 5)).2.2 rfl⟩

/-- C8: auxiliary-data variant equivalence. use_pin_or_insert_with_data
applied to data and two callbacks returns the same reference, final state
and final environment as use_pin_or_insert_with with the data partially
applied to both callbacks. -/
theorem with_data_refines_with {T Data σ : Type} (s : LazyPinned T) (d : Data)
    (u : σ → Data → T → T × σ) (ins : σ → Data → T × σ) (st : σ) :
    s.use_pin_or_insert_with_data d u ins st =
      s.use_pin_or_insert_with (fun st x => u st d x) (fun st => ins st d) st := by
  obtain ⟨o⟩ := s
  cases o <;> rfl

/-- C9: totality. Every pinned-surface operation on every container state
computes a result and a successor state (the embedding needed no Option or
Except around any method: nothing fails); the default constructor yields
the empty container; and each of the five or_insert operations always
returns a present reference. -/
theorem api_totality {T : Type} (op : POp T) (s : LazyPinned T) :
    (∃ r t, runRet op s = r ∧ step op s = t) ∧
    (LazyPinned.default : LazyPinned T).opt = none ∧
    (op.insertsB = true → (runRet op s).isSome = true) := by
  refine ⟨⟨runRet op s, step op s, rfl, rfl⟩, rfl, ?_⟩
  cases op <;> simp [runRet, POp.insertsB]

/-- Witness for C9: the by-value insert on an empty container returns a
present reference. -/
theorem api_totality_witness :
    (runRet (POp.projOrInsert 5) (⟨none⟩ : LazyPinned Nat)).isSome = true :=
  (api_totality (POp.projOrInsert 5) ⟨none⟩).2.2 rfl

/-- C10: projections are pure with respect to the slot. The mutable
projection returns the container state unchanged, and as step-machine
operations both projections are the identity on the state (the read-only
projection takes a shared reference and by construction cannot write). -/
theorem projections_pure {T : Type} (s : LazyPinned T) :
    s.as_pin_mut.2 = s ∧ step POp.asPinRef s = s ∧ step POp.asPinMut s = s ∧
    s.as_pin_mut.2.opt = s.opt :=
  ⟨rfl, rfl, rfl, rfl⟩
